import Mathlib

/-!
Shallow embedding of the numerical core of the RABIES preprocessing pipeline
(src/workflows/preprocess_bold_pkg/utils.py and confounds.py), together with
theorems settling the specification claims about it.

Volumetric data (NIfTI arrays handled through numpy) is modelled as a shape
together with a total valuation of integer index lists; voxel values are
rationals (the float arithmetic involved here is exact on the operations the
claims mention: slicing, copying, medians of small lists, squaring).
Python failure modes (IndexError, the early return of None on a bad rank,
the pandas column-length ValueError, an unbound local variable) are modelled
as values of an error enumeration through Except.
-/

set_option maxRecDepth 8000

namespace RABIES

/-- Failure modes of the embedded Python code. -/
inductive PyErr where
  | indexError
  | dimensionCheck
  | broadcastError
  | unboundLocal
  | lengthMismatch
  deriving DecidableEq

/-- A numpy-style n-dimensional array: a shape and a total valuation of index
lists.  Only indices that are pointwise below the shape are meaningful. -/
structure NDArray where
  shape : List ℕ
  data : List ℕ → ℚ

instance : Inhabited NDArray := ⟨⟨[], fun _ => 0⟩⟩

/-- All valid index lists of a given shape, in lexicographic order. -/
def allIndices : List ℕ → List (List ℕ)
  | [] => [[]]
  | s :: rest => (List.range s).flatMap (fun i => (allIndices rest).map (fun ix => i :: ix))

/-- Voxel-for-voxel identity: same shape and the same value at every valid index. -/
def voxelEq (a b : NDArray) : Prop :=
  a.shape = b.shape ∧ ∀ ix ∈ allIndices a.shape, a.data ix = b.data ix

theorem mem_allIndices (sh : List ℕ) : ∀ ix : List ℕ,
    ix ∈ allIndices sh ↔ List.Forall₂ (fun i s => i < s) ix sh := by
  induction sh with
  | nil =>
    intro ix
    simp [allIndices, List.forall₂_nil_right_iff]
  | cons s rest ih =>
    intro ix
    simp only [allIndices, List.mem_flatMap, List.mem_map, List.mem_range]
    constructor
    · rintro ⟨i, hi, jx, hjx, rfl⟩
      exact List.Forall₂.cons hi ((ih jx).mp hjx)
    · intro h
      cases h with
      | cons ha htail =>
        rename_i a as
        exact ⟨a, ha, as, (ih as).mpr htail, rfl⟩

theorem getD_map_range {α : Type} (f : ℕ → α) (d : α) {t i : ℕ} (h : i < t) :
    ((List.range t).map f).getD i d = f i := by
  rw [List.getD_eq_getElem?_getD]
  simp [List.getElem?_map, List.getElem?_range, h]

/-! ## Volume Splitter / Merger (utils.py: split_volumes, Merge._run_interface) -/

/-- One 3-D slice of a rank-4 array: in_nii.dataobj[:, :, :, x]. -/
def splitVol4 (img : NDArray) (x : ℕ) : NDArray :=
  ⟨img.shape.take 3, fun ix => img.data (ix ++ [x])⟩

/-- One 4-D slice of a rank-5 array: in_nii.dataobj[:, :, :, x, :]. -/
def splitVol5 (img : NDArray) (x : ℕ) : NDArray :=
  ⟨img.shape.take 3 ++ img.shape.drop 4,
   fun ix => img.data (ix.take 3 ++ [x] ++ ix.drop 3)⟩

/-- split_volumes (utils.py).  The source reads num_volumes = in_nii.shape[3]
before checking the rank, so a rank below 4 raises IndexError there; a rank
other than 4 or 5 then makes the function return None (modelled as an error
value), and otherwise the series is cut along the fourth axis. -/
def split_volumes (img : NDArray) : Except PyErr (List NDArray × ℕ) :=
  match img.shape[3]? with
  | none => Except.error PyErr.indexError
  | some t =>
    if img.shape.length ≠ 4 ∧ img.shape.length ≠ 5 then Except.error PyErr.dimensionCheck
    else if img.shape.length = 4 then Except.ok ((List.range t).map (splitVol4 img), t)
    else Except.ok ((List.range t).map (splitVol5 img), t)

/-- numpy broadcast admissibility of a source shape into a target slot:
no more axes than the target, and each trailing-aligned axis equal or 1. -/
def broadcastsTo (src tgt : List ℕ) : Bool :=
  decide (src.length ≤ tgt.length) &&
  ((tgt.drop (tgt.length - src.length)).zip src).all (fun p => p.1 == p.2 || p.2 == 1)

/-- Reading a broadcast source at a target index: size-1 axes read position 0. -/
def bcastRead (f : NDArray) (ix : List ℕ) : ℚ :=
  f.data (((ix.drop (ix.length - f.shape.length)).zip f.shape).map
    (fun p => if p.2 = 1 then 0 else p.1))

/-- Merge._run_interface (utils.py): the first file donates the three spatial
dimensions, combined is allocated as (s0, s1, s2, number of files), and each
file is assigned into combined[:, :, :, i]; the assignment requires the file
to broadcast into one 3-D frame slot, otherwise numpy raises ValueError. -/
def mergeVolumes (files : List NDArray) : Except PyErr NDArray :=
  match files[0]? with
  | none => Except.error PyErr.indexError
  | some f0 =>
    match f0.shape[0]?, f0.shape[1]?, f0.shape[2]? with
    | some s0, some s1, some s2 =>
      if files.all (fun f => broadcastsTo f.shape [s0, s1, s2]) then
        Except.ok ⟨[s0, s1, s2, files.length],
          fun ix => bcastRead (files.getD (ix.getD 3 0) default) (ix.take 3)⟩
      else Except.error PyErr.broadcastError
    | _, _, _ => Except.error PyErr.indexError

/-- merge(split(x)) with x as header donor, as claimed in the round-trip law. -/
def roundTrip (x : NDArray) : Except PyErr NDArray := do
  let p ← split_volumes x
  mergeVolumes p.1

theorem split4_ok (x : NDArray) (s0 s1 s2 t : ℕ) (hsh : x.shape = [s0, s1, s2, t]) :
    split_volumes x = Except.ok ((List.range t).map (splitVol4 x), t) := by
  have hget : x.shape[3]? = some t := by rw [hsh]; rfl
  have hlen : x.shape.length = 4 := by rw [hsh]; rfl
  simp [split_volumes, hget, hlen]

/-- C4 (amended): for a rank-4 TimeSeries with at least one frame, merging the
volumes produced by splitting it yields a series voxel-for-voxel identical to
the input; the rank-5 half of the original claim fails (see the
counterexample), since Merge assigns each split part into a 3-D frame slot. -/
theorem merge_split_roundTrip (x : NDArray) (s0 s1 s2 t : ℕ)
    (hsh : x.shape = [s0, s1, s2, t]) (ht : 0 < t) :
    ∃ y, roundTrip x = Except.ok y ∧ voxelEq y x := by
  have hsplit := split4_ok x s0 s1 s2 t hsh
  have hvshape : ∀ i, (splitVol4 x i).shape = [s0, s1, s2] := by
    intro i; simp [splitVol4, hsh]
  set vols := (List.range t).map (splitVol4 x) with hvols
  have hget0 : vols[0]? = some (splitVol4 x 0) := by
    simp [hvols, List.getElem?_map, List.getElem?_range, ht]
  have hall : vols.all (fun f => broadcastsTo f.shape [s0, s1, s2]) = true := by
    rw [List.all_eq_true]
    intro f hf
    rw [hvols] at hf
    rcases List.mem_map.mp hf with ⟨i, _, rfl⟩
    rw [hvshape i]
    simp [broadcastsTo]
  have hlenv : vols.length = t := by simp [hvols]
  have hmerge : mergeVolumes vols
      = Except.ok ⟨[s0, s1, s2, vols.length],
          fun ix => bcastRead (vols.getD (ix.getD 3 0) default) (ix.take 3)⟩ := by
    simp only [mergeVolumes, hget0, hvshape 0]
    simp only [List.getElem?_cons_zero, List.getElem?_cons_succ]
    rw [if_pos hall]
  rw [hlenv] at hmerge
  refine ⟨⟨[s0, s1, s2, t],
    fun ix => bcastRead (vols.getD (ix.getD 3 0) default) (ix.take 3)⟩, ?_, ?_, ?_⟩
  · show (do let p ← split_volumes x; mergeVolumes p.1) = _
    rw [hsplit]
    exact hmerge
  · rw [hsh]
  · intro ix hix
    have h2 := (mem_allIndices [s0, s1, s2, t] ix).mp hix
    simp only [List.forall₂_cons_right_iff, List.forall₂_nil_right_iff] at h2
    obtain ⟨a, la, ha, ⟨b, lb, hb, ⟨c, lc, hc, ⟨i, li, hi, hnil, rfl⟩, rfl⟩, rfl⟩, rfl⟩ := h2
    subst hnil
    show bcastRead (vols.getD i default) [a, b, c] = x.data [a, b, c, i]
    rw [hvols, getD_map_range (splitVol4 x) default hi]
    show (splitVol4 x i).data
      ((([a, b, c].drop ([a, b, c].length - (splitVol4 x i).shape.length)).zip
        (splitVol4 x i).shape).map (fun p => if p.2 = 1 then 0 else p.1))
      = x.data [a, b, c, i]
    rw [hvshape i]
    have ea : (if s0 = 1 then 0 else a) = a := by split <;> omega
    have eb : (if s1 = 1 then 0 else b) = b := by split <;> omega
    have ec : (if s2 = 1 then 0 else c) = c := by split <;> omega
    show x.data ([if s0 = 1 then 0 else a, if s1 = 1 then 0 else b,
      if s2 = 1 then 0 else c] ++ [i]) = x.data [a, b, c, i]
    rw [ea, eb, ec]
    rfl

/-- A concrete rank-5 witness array of shape 1 x 1 x 1 x 1 x 2. -/
def x5ex : NDArray := ⟨[1, 1, 1, 1, 2], fun _ => 0⟩

/-- C4 counterexample: on a rank-5 input, merge(split(x)) is not voxel-identical
to x; the merge step fails with a broadcast error, because splitting a rank-5
series produces rank-4 parts that Merge cannot assign into its 3-D frame slots. -/
theorem roundTrip_rank5_fails :
    x5ex.shape.length = 5 ∧ roundTrip x5ex = Except.error PyErr.broadcastError :=
  ⟨rfl, rfl⟩

/-- C4 witness: the round-trip theorem applied to a concrete 2 x 2 x 1 x 3 series. -/
def x4ex : NDArray := ⟨[2, 2, 1, 3], fun ix => (ix.sum : ℚ)⟩

theorem merge_split_roundTrip_witness :
    ∃ y, roundTrip x4ex = Except.ok y ∧ voxelEq y x4ex :=
  merge_split_roundTrip x4ex 2 2 1 3 rfl (by decide)

/-- C8: splitting a volumetric input whose rank is neither 4 nor 5 produces an
error result (the IndexError from reading shape[3] when the rank is below 4,
or the guarded early exit when the rank exceeds 5), never a normal result. -/
theorem split_volumes_bad_rank (img : NDArray)
    (h4 : img.shape.length ≠ 4) (h5 : img.shape.length ≠ 5) :
    split_volumes img = Except.error PyErr.indexError ∨
    split_volumes img = Except.error PyErr.dimensionCheck := by
  cases h : img.shape[3]? with
  | none => left; simp [split_volumes, h]
  | some t =>
    right
    simp only [split_volumes, h]
    rw [if_pos ⟨h4, h5⟩]

/-- A concrete rank-3 volume. -/
def img3ex : NDArray := ⟨[2, 2, 2], fun _ => 0⟩

theorem split_volumes_bad_rank_witness :
    split_volumes img3ex = Except.error PyErr.indexError ∨
    split_volumes img3ex = Except.error PyErr.dimensionCheck :=
  split_volumes_bad_rank img3ex (by decide) (by decide)

/-! ## Outlier Detector (utils.py: _get_vols_to_discard; the flagging itself is
the function is_outlier of the external nipype library, absent from src, so it
is modelled from the spec) -/

/-- numpy-style median of a list of rationals: sort, take the middle element,
or the mean of the two middle elements when the length is even. -/
def median (l : List ℚ) : ℚ :=
  if l.length % 2 = 1 then (l.insertionSort (fun a b => a ≤ b)).getD (l.length / 2) 0
  else ((l.insertionSort (fun a b => a ≤ b)).getD (l.length / 2 - 1) 0
        + (l.insertionSort (fun a b => a ≤ b)).getD (l.length / 2) 0) / 2

/-- Absolute value on the rationals, written with a plain comparison so that it
evaluates inside the kernel. -/
def absQ (x : ℚ) : ℚ := if x < 0 then -x else x

/-- Modelled from the spec: the Outlier Detector flag of section 4.1 (function
is_outlier, external nipype library, not in src).  A point is flagged when its
absolute deviation from the median, scaled by 0.6745 (the median absolute
deviation to standard deviation factor), exceeds the fixed threshold 3.5 times
the median absolute deviation.  The comparison is stated without a division so
that a zero median absolute deviation flags exactly the points with a nonzero
deviation. -/
def outlierFlags (points : List ℚ) : List Bool :=
  (points.map (fun x => absQ (x - median points))).map
    (fun d => decide ((6745 : ℚ) / 10000 * d
      > 7 / 2 * median (points.map (fun x => absQ (x - median points)))))

/-- Length of the leading contiguous run of true flags. -/
def leadingRun : List Bool → ℕ
  | [] => 0
  | b :: rest => if b then leadingRun rest + 1 else 0

/-- Modelled from the spec: the Outlier Detector count of section 4.1 — the
length of the leading contiguous outlier run, and 0 whenever the sequence has
fewer than two elements. -/
def is_outlier (points : List ℚ) : ℕ :=
  if points.length < 2 then 0 else leadingRun (outlierFlags points)

theorem leadingRun_le (l : List Bool) : leadingRun l ≤ l.length := by
  induction l with
  | nil => simp [leadingRun]
  | cons b rest ih =>
    cases b with
    | false => simp [leadingRun]
    | true =>
      simp only [leadingRun, if_pos, List.length_cons]
      omega

theorem leadingRun_spec (l : List Bool) :
    (∀ i, i < leadingRun l → l.getD i false = true)
    ∧ (leadingRun l < l.length → l.getD (leadingRun l) false = false) := by
  induction l with
  | nil => simp [leadingRun]
  | cons b rest ih =>
    cases b with
    | false =>
      refine ⟨by simp [leadingRun], ?_⟩
      intro _
      simp [leadingRun, List.getD]
    | true =>
      refine ⟨?_, ?_⟩
      · intro i hi
        cases i with
        | zero => simp [List.getD]
        | succ j =>
          simp only [leadingRun, if_pos] at hi
          exact ih.1 j (by omega)
      · intro hlen
        simp only [leadingRun, if_pos, List.length_cons] at hlen ⊢
        exact ih.2 (by omega)

theorem outlierFlags_length (points : List ℚ) :
    (outlierFlags points).length = points.length := by
  simp [outlierFlags]

theorem is_outlier_le (points : List ℚ) : is_outlier points ≤ points.length := by
  unfold is_outlier
  split
  · omega
  · exact le_trans (leadingRun_le _) (le_of_eq (outlierFlags_length points))

theorem outlierFlags_singleton (x : ℚ) : outlierFlags [x] = [false] := by
  simp only [outlierFlags, median, List.insertionSort, List.orderedInsert, List.map,
    List.length_cons, List.length_nil]
  norm_num [absQ]

/-- C5: the Outlier Detector returns the length of the leading contiguous run
of outlier-flagged elements (its result bounds the run from below, and the next
element, when it exists, is unflagged; in particular it is zero when the first
element is unflagged); it returns 3 on the trace 100,100,100,10,10,10,10, and 0
on every trace of length below 2. -/
theorem is_outlier_leading_run (points : List ℚ) :
    (∀ i, i < is_outlier points → (outlierFlags points).getD i false = true)
    ∧ (is_outlier points < points.length
        → (outlierFlags points).getD (is_outlier points) false = false)
    ∧ (points.length < 2 → is_outlier points = 0)
    ∧ is_outlier [100, 100, 100, 10, 10, 10, 10] = 3 := by
  refine ⟨?_, ?_, ?_, by with_unfolding_all decide⟩
  · intro i hi
    unfold is_outlier at hi
    split at hi
    · omega
    · exact (leadingRun_spec (outlierFlags points)).1 i hi
  · intro hlt
    unfold is_outlier
    split
    · rename_i hsmall
      interval_cases h : points.length
      · omega
      · obtain ⟨x, hx⟩ : ∃ x, points = [x] := by
          cases points with
          | nil => simp at h
          | cons y ys =>
            cases ys with
            | nil => exact ⟨y, rfl⟩
            | cons z zs => simp at h
        rw [hx, outlierFlags_singleton]
        simp [List.getD]
    · rename_i hbig
      have heq : is_outlier points = leadingRun (outlierFlags points) := by
        unfold is_outlier
        rw [if_neg hbig]
      rw [heq] at hlt
      exact (leadingRun_spec (outlierFlags points)).2 (by rw [outlierFlags_length]; exact hlt)
  · intro hlt
    unfold is_outlier
    rw [if_pos hlt]

/-- C5 witness: concrete instantiations of the run characterization. -/
theorem is_outlier_leading_run_witness :
    is_outlier [100, 100, 100, 10, 10, 10, 10] = 3 ∧ is_outlier [(5 : ℚ)] = 0 :=
  ⟨(is_outlier_leading_run []).2.2.2,
   (is_outlier_leading_run [(5 : ℚ)]).2.2.1 (by decide)⟩

/-! ## Reference Image Estimator (utils.py: EstimateReferenceImage._run_interface,
_get_vols_to_discard).  The external motion-correction solver (antsMotionCorr)
is an abstract parameter mapping (input series, target reference) to a
motion-corrected series; the estimator records the pair of arguments of each
solver invocation. -/

/-- Overall spatial mean of frame x of a rank-4 series: the chain of
mean(axis=0) reductions in _get_vols_to_discard amounts to the total over all
voxels divided by the voxel count (exact in ℚ for a nonempty grid). -/
def spatialMean (img : NDArray) (x : ℕ) : ℚ :=
  (((allIndices (img.shape.take 3)).map (fun ix => img.data (ix ++ [x]))).sum)
    / ((img.shape.take 3).prod : ℚ)

/-- The global-signal trace of the first 50 (or fewer) frames,
data_slice = img.dataobj[:, :, :, :50] in _get_vols_to_discard. -/
def globalTrace (img : NDArray) : List ℚ :=
  (List.range (min 50 (img.shape.getD 3 0))).map (spatialMean img)

/-- _get_vols_to_discard (utils.py): the Outlier Detector applied to the
global-signal trace of the first 50 frames. -/
def vols_to_discard (img : NDArray) : ℕ := is_outlier (globalTrace img)

/-- The 4-D subseries data_slice[:, :, :, lo : lo + len]. -/
def framesSub (img : NDArray) (lo len : ℕ) : NDArray :=
  ⟨img.shape.take 3 ++ [len], fun ix => img.data (ix.take 3 ++ [lo + ix.getD 3 0])⟩

/-- np.median(_, axis=3) restricted to the listed frames: the voxel-wise median
over those frames, a 3-D volume. -/
def voxelMedianFrames (img : NDArray) (idxs : List ℕ) : NDArray :=
  ⟨img.shape.take 3, fun ix => median (idxs.map (fun x => img.data (ix ++ [x])))⟩

/-- Result of the Reference Image Estimator: the reference volume, the detected
dummy-volume count, and the (input, target) argument pairs of the successive
solver invocations. -/
structure RefEstimate where
  refImage : NDArray
  nDiscard : ℕ
  calls : List (NDArray × NDArray)

/-- EstimateReferenceImage._run_interface (utils.py).  With dummy volumes
detected, the reference is the voxel-wise median of the leading dummy frames
of data_slice and the solver is never invoked; otherwise an initial target is
the median of frames 20:40 when shape[-1] > 40, or of the whole (first-50
truncated) data_slice, and two solver passes refine it, the final reference
being the voxel-wise median of the second pass's output. -/
def estimateReference (solver : NDArray → NDArray → NDArray) (img : NDArray) :
    RefEstimate :=
  let t50 := min 50 (img.shape.getD 3 0)
  let n := vols_to_discard img
  if n = 0 then
    let tLast := (img.shape.getLast?).getD 0
    let sliceIn := if 40 < tLast then framesSub img 20 20 else img
    let target := if 40 < tLast then voxelMedianFrames img (List.range' 20 20)
                  else voxelMedianFrames img (List.range t50)
    let mc1 := solver sliceIn target
    let med1 := voxelMedianFrames mc1 (List.range (mc1.shape.getD 3 0))
    let mc2 := solver sliceIn med1
    let final := voxelMedianFrames mc2 (List.range (mc2.shape.getD 3 0))
    ⟨final, 0, [(sliceIn, target), (sliceIn, med1)]⟩
  else
    ⟨voxelMedianFrames img (List.range (min n t50)), n, []⟩

/-- C6: whenever the detected dummy-volume count is positive, the returned
reference is the voxel-wise median of the first DummyVolumeCount frames, and
the external motion-correction solver is never invoked. -/
theorem ref_dummy_median (solver : NDArray → NDArray → NDArray) (img : NDArray)
    (h : 0 < vols_to_discard img) :
    (estimateReference solver img).refImage
      = voxelMedianFrames img (List.range (vols_to_discard img))
    ∧ (estimateReference solver img).calls = [] := by
  have hle : vols_to_discard img ≤ min 50 (img.shape.getD 3 0) := by
    have h1 := is_outlier_le (globalTrace img)
    have h2 : (globalTrace img).length = min 50 (img.shape.getD 3 0) := by
      simp [globalTrace]
    unfold vols_to_discard
    omega
  have hmin : min (vols_to_discard img) (min 50 (img.shape.getD 3 0))
      = vols_to_discard img := Nat.min_eq_left hle
  simp only [estimateReference]
  rw [if_neg (by omega)]
  rw [hmin]
  exact ⟨rfl, rfl⟩

/-- A 1 x 1 x 1 x 7 series whose global trace is 100,100,100,10,10,10,10. -/
def img7ex : NDArray := ⟨[1, 1, 1, 7], fun ix => if ix.getD 3 0 < 3 then 100 else 10⟩

theorem ref_dummy_median_witness :
    0 < vols_to_discard img7ex
    ∧ ((estimateReference (fun a _ => a) img7ex).refImage
        = voxelMedianFrames img7ex (List.range (vols_to_discard img7ex))
      ∧ (estimateReference (fun a _ => a) img7ex).calls = []) :=
  ⟨by with_unfolding_all decide,
   ref_dummy_median (fun a _ => a) img7ex (by with_unfolding_all decide)⟩

/-- C7 (amended): with no dummy volumes detected, the initial motion-correction
target is the voxel-wise median of frames 20 to 40 whenever the series has
strictly more than 40 frames (the source tests shape[-1] > 40), and otherwise
the voxel-wise median of all available frames truncated to the first 50; the
original claim's boundary (at least 40 frames) fails at exactly 40 frames. -/
theorem ref_initial_target (solver : NDArray → NDArray → NDArray) (img : NDArray)
    (s0 s1 s2 t : ℕ) (hsh : img.shape = [s0, s1, s2, t])
    (h0 : vols_to_discard img = 0) :
    ((estimateReference solver img).calls.getD 0 default).2
      = if 40 < t then voxelMedianFrames img (List.range' 20 20)
        else voxelMedianFrames img (List.range (min 50 t)) := by
  have hlast : (img.shape.getLast?).getD 0 = t := by rw [hsh]; rfl
  have hget3 : img.shape.getD 3 0 = t := by rw [hsh]; rfl
  simp only [estimateReference, hlast, hget3]
  rw [if_pos h0]
  by_cases h40 : 40 < t
  · simp only [if_pos h40]
    rfl
  · simp only [if_neg h40]
    rfl

/-- A constant 1 x 1 x 1 x 5 series: no outliers, five frames. -/
def imgC7ex : NDArray := ⟨[1, 1, 1, 5], fun _ => 2⟩

theorem ref_initial_target_witness :
    vols_to_discard imgC7ex = 0
    ∧ ((estimateReference (fun a _ => a) imgC7ex).calls.getD 0 default).2
        = voxelMedianFrames imgC7ex (List.range (min 50 5)) := by
  have h0 : vols_to_discard imgC7ex = 0 := by with_unfolding_all decide
  have h := ref_initial_target (fun a _ => a) imgC7ex 1 1 1 5 rfl h0
  rw [if_neg (by omega)] at h
  exact ⟨h0, h⟩

/-- A 1 x 1 x 1 x 40 series: frames 0-19 hold 0, frames 20-39 hold 1; its
global trace has no leading outlier run. -/
def img40ex : NDArray := ⟨[1, 1, 1, 40], fun ix => if ix.getD 3 0 < 20 then 0 else 1⟩

/-- C7 counterexample: at exactly 40 frames (within "at least 40") and no dummy
volumes, the initial target is the voxel-wise median of all 40 frames (value
1/2 at the voxel), not the median of frames 20 to 40 (value 1): the source
takes the 20:40 window only when shape[-1] is strictly greater than 40. -/
theorem ref_initial_target_forty :
    vols_to_discard img40ex = 0
    ∧ img40ex.shape.getD 3 0 = 40
    ∧ (((estimateReference (fun a _ => a) img40ex).calls.getD 0 default).2).data [0, 0, 0]
        = 1 / 2
    ∧ (voxelMedianFrames img40ex (List.range' 20 20)).data [0, 0, 0] = 1 := by
  refine ⟨by with_unfolding_all decide, rfl, ?_, by with_unfolding_all decide⟩
  with_unfolding_all decide

/-! ## Transform Application Engine (utils.py: applyTransforms._run_interface).
The external resampling executable (antsApplyTransforms) is represented by the
record of its per-frame invocations: each invocation carries the frame index,
the moving volume, and the ordered transform chain. -/

/-- Python list indexing: IndexError beyond the end. -/
def pyGetA (l : List NDArray) (i : ℕ) : Except PyErr NDArray :=
  match l[i]? with
  | some v => Except.ok v
  | none => Except.error PyErr.indexError

/-- One invocation of the external resampler. -/
structure ResampleCall where
  frame : ℕ
  input : NDArray
  transforms : List NDArray

/-- The loop for x in range(0, num_volumes) of applyTransforms._run_interface:
remaining iteration count and current frame index. -/
def atLoop (useF : Bool) (fw : NDArray) (bvols xvols : List NDArray) :
    ℕ → ℕ → Except PyErr (List ResampleCall)
  | 0, _ => Except.ok []
  | r + 1, x =>
    match pyGetA bvols x with
    | Except.error e => Except.error e
    | Except.ok b =>
      match pyGetA xvols x with
      | Except.error e => Except.error e
      | Except.ok xf =>
        match atLoop useF fw bvols xvols r (x + 1) with
        | Except.error e => Except.error e
        | Except.ok rest =>
          Except.ok ({ frame := x, input := b,
                       transforms := if useF then [xf, fw] else [xf] } :: rest)

/-- applyTransforms._run_interface (utils.py): split the series and the
transform stack, set the first volume as reference, then resample each frame
with its own motion transform, appending the shared fieldwarp only when
use_fieldwarp is set; the loop bound is the volume count of the split
transform stack. -/
def applyTransforms (useF : Bool) (fw inFile xforms : NDArray) :
    Except PyErr (List ResampleCall) :=
  match split_volumes inFile with
  | Except.error e => Except.error e
  | Except.ok pb =>
    match split_volumes xforms with
    | Except.error e => Except.error e
    | Except.ok px =>
      match pyGetA pb.1 0 with
      | Except.error e => Except.error e
      | Except.ok _ref => atLoop useF fw pb.1 px.1 px.2 0

theorem atLoop_ok (useF : Bool) (fw : NDArray) (bvols xvols : List NDArray) :
    ∀ r x, x + r ≤ bvols.length → x + r ≤ xvols.length →
    atLoop useF fw bvols xvols r x
      = Except.ok ((List.range' x r).map (fun i =>
          { frame := i, input := bvols.getD i default,
            transforms := if useF then [xvols.getD i default, fw]
                          else [xvols.getD i default] })) := by
  intro r
  induction r with
  | zero => intro x _ _; rfl
  | succ r ih =>
    intro x hb hx
    have hbx : x < bvols.length := by omega
    have hxx : x < xvols.length := by omega
    have hgb : pyGetA bvols x = Except.ok (bvols.getD x default) := by
      unfold pyGetA
      rw [List.getElem?_eq_getElem hbx, List.getD_eq_getElem?_getD,
        List.getElem?_eq_getElem hbx]
      rfl
    have hgx : pyGetA xvols x = Except.ok (xvols.getD x default) := by
      unfold pyGetA
      rw [List.getElem?_eq_getElem hxx, List.getD_eq_getElem?_getD,
        List.getElem?_eq_getElem hxx]
      rfl
    simp only [atLoop, hgb, hgx, ih (x + 1) (by omega) (by omega), List.range'_succ,
      List.map_cons]

/-- C9: for every frame index of an input series aligned 1:1 with the transform
stack, the engine invokes the external resampler exactly once, with the frame's
own motion transform first and the shared distortion field appended exactly
when the flag is set, collecting the invocations in original frame order. -/
theorem applyTransforms_per_frame (useF : Bool) (fw inFile xforms : NDArray)
    (s0 s1 s2 t x0 x1 x2 x4 : ℕ)
    (hb : inFile.shape = [s0, s1, s2, t])
    (hx : xforms.shape = [x0, x1, x2, t, x4]) (ht : 0 < t) :
    applyTransforms useF fw inFile xforms
      = Except.ok ((List.range t).map (fun i =>
          { frame := i, input := splitVol4 inFile i,
            transforms := if useF then [splitVol5 xforms i, fw]
                          else [splitVol5 xforms i] })) := by
  have hsb := split4_ok inFile s0 s1 s2 t hb
  have hgetx : xforms.shape[3]? = some t := by rw [hx]; rfl
  have hlenx : xforms.shape.length = 5 := by rw [hx]; rfl
  have hsx : split_volumes xforms
      = Except.ok ((List.range t).map (splitVol5 xforms), t) := by
    simp [split_volumes, hgetx, hlenx]
  have href : pyGetA ((List.range t).map (splitVol4 inFile)) 0
      = Except.ok (splitVol4 inFile 0) := by
    unfold pyGetA
    rw [List.getElem?_map, List.getElem?_range ht]
    rfl
  simp only [applyTransforms, hsb, hsx, href]
  rw [atLoop_ok useF fw _ _ t 0 (by simp) (by simp)]
  rw [show List.range' 0 t = List.range t from (List.range_eq_range' t).symm]
  congr 1
  apply List.map_congr_left
  intro i hi
  have hi' : i < t := List.mem_range.mp hi
  rw [getD_map_range (splitVol4 inFile) default hi',
    getD_map_range (splitVol5 xforms) default hi']

/-- Concrete witnesses for the transform engine: a 1 x 1 x 1 x 2 series and a
1 x 1 x 1 x 2 x 1 transform stack. -/
def boldEx : NDArray := ⟨[1, 1, 1, 2], fun ix => (ix.sum : ℚ)⟩

def xformEx : NDArray := ⟨[1, 1, 1, 2, 1], fun ix => (ix.sum : ℚ)⟩

def fwEx : NDArray := ⟨[1, 1, 1], fun _ => 7⟩

theorem applyTransforms_per_frame_witness :
    applyTransforms true fwEx boldEx xformEx
      = Except.ok ((List.range 2).map (fun i =>
          { frame := i, input := splitVol4 boldEx i,
            transforms := [splitVol5 xformEx i, fwEx] })) := by
  have h := applyTransforms_per_frame true fwEx boldEx xformEx
    1 1 1 2 1 1 1 1 rfl rfl (by decide)
  simpa using h

/-! ## Anatomical Component Corrector (confounds.py: compute_aCompCor).
The PCA decomposition itself is external (sklearn); what is embedded is the
component-count selection from the descending explained-variance ratios and
the refit call PCA(n_components=num_comp), the refit being an abstract
function of the selected count. -/

/-- The while loop of compute_aCompCor under method 50 percent: while the
cumulative variance is at most 0.5, add the next explained-variance ratio and
count it; running past the end of the ratio list raises IndexError. -/
def loop50 : List ℚ → ℚ → ℕ → Except PyErr ℕ
  | [], cum, n => if cum ≤ 1 / 2 then Except.error PyErr.indexError else Except.ok n
  | e :: r, cum, n =>
    if cum ≤ 1 / 2 then loop50 r (cum + e) (n + 1) else Except.ok n

/-- The component count selected by compute_aCompCor: the while loop for
method '50%', the constant 5 for method 'first_5', and for any other method
string num_comp is never assigned, so its use raises UnboundLocalError. -/
def compute_aCompCor_numComp (method : String) (ev : List ℚ) : Except PyErr ℕ :=
  if method = "50%" then loop50 ev 0 0
  else if method = "first_5" then Except.ok 5
  else Except.error PyErr.unboundLocal

/-- compute_aCompCor (confounds.py): select the component count from the
explained-variance ratios, then refit the decomposition with exactly that
count (refit abstracts PCA(n_components=n).fit_transform) and return the
component time series together with the count. -/
def compute_aCompCor (refit : ℕ → List (List ℚ)) (method : String) (ev : List ℚ) :
    Except PyErr (List (List ℚ) × ℕ) :=
  (compute_aCompCor_numComp method ev).map (fun n => (refit n, n))

theorem loop50_ok_spec : ∀ (rest : List ℚ) (cum : ℚ) (n k : ℕ),
    loop50 rest cum n = Except.ok k →
    ∃ j, k = n + j ∧ j ≤ rest.length
      ∧ 1 / 2 < cum + (rest.take j).sum
      ∧ ∀ i < j, cum + (rest.take i).sum ≤ 1 / 2 := by
  intro rest
  induction rest with
  | nil =>
    intro cum n k h
    unfold loop50 at h
    split at h
    · exact absurd h (by simp)
    · refine ⟨0, ?_, ?_, ?_, ?_⟩
      · cases h; omega
      · simp
      · simpa using by linarith [not_le.mp (by assumption : ¬ cum ≤ 1 / 2)]
      · omega
  | cons e r ih =>
    intro cum n k h
    unfold loop50 at h
    split at h
    · rename_i hle
      obtain ⟨j, hk, hjlen, hgt, hmin⟩ := ih (cum + e) (n + 1) k h
      refine ⟨j + 1, by omega, by simp; omega, ?_, ?_⟩
      · simpa [List.take_succ_cons, add_assoc] using hgt
      · intro i hi
        cases i with
        | zero => simpa using hle
        | succ i' =>
          have := hmin i' (by omega)
          simpa [List.take_succ_cons, add_assoc] using this
    · rename_i hgt
      refine ⟨0, ?_, by simp, ?_, by omega⟩
      · cases h; omega
      · simpa using by linarith [not_le.mp hgt]

theorem loop50_total : ∀ (rest : List ℚ) (cum : ℚ) (n : ℕ),
    1 / 2 < cum + rest.sum → ∃ k, loop50 rest cum n = Except.ok k := by
  intro rest
  induction rest with
  | nil =>
    intro cum n h
    refine ⟨n, ?_⟩
    unfold loop50
    rw [if_neg (by simp at h; linarith)]
  | cons e r ih =>
    intro cum n h
    by_cases hle : cum ≤ 1 / 2
    · obtain ⟨k, hk⟩ := ih (cum + e) (n + 1) (by simp at h; linarith)
      exact ⟨k, by unfold loop50; rw [if_pos hle]; exact hk⟩
    · exact ⟨n, by unfold loop50; rw [if_neg hle]⟩

/-- C3: under the variance-threshold policy ('50%'), aCompCor selects the
smallest component count whose cumulative explained-variance ratio strictly
exceeds 0.5 and refits with exactly that count; under the fixed-count policy
('first_5') it returns exactly 5 components regardless of the distribution.
The hypothesis that the ratios sum above 0.5 reflects that sklearn's
explained_variance_ratio_ sums to 1. -/
theorem aCompCor_selection (refit : ℕ → List (List ℚ)) (ev : List ℚ)
    (hsum : 1 / 2 < ev.sum) :
    (∃ n, compute_aCompCor refit "50%" ev = Except.ok (refit n, n)
      ∧ 1 / 2 < (ev.take n).sum
      ∧ ∀ m < n, (ev.take m).sum ≤ 1 / 2)
    ∧ compute_aCompCor refit "first_5" ev = Except.ok (refit 5, 5) := by
  constructor
  · obtain ⟨k, hk⟩ := loop50_total ev 0 0 (by simpa using hsum)
    obtain ⟨j, hkj, _, hgt, hmin⟩ := loop50_ok_spec ev 0 0 k hk
    refine ⟨k, ?_, ?_, ?_⟩
    · simp only [compute_aCompCor, compute_aCompCor_numComp, if_pos rfl, hk]
      rfl
    · subst hkj; simpa using hgt
    · intro m hm
      subst hkj
      simpa using hmin m (by omega)
  · rfl

/-- C3 witness: ratios 0.3, 0.3, 0.2, 0.2 — two components cross the 0.5
threshold, and the fixed-count policy returns 5 components. -/
theorem aCompCor_selection_witness :
    compute_aCompCor (fun _ => ([] : List (List ℚ))) "50%" [3/10, 3/10, 2/10, 2/10]
      = Except.ok ([], 2)
    ∧ compute_aCompCor (fun _ => ([] : List (List ℚ))) "first_5" [3/10, 3/10, 2/10, 2/10]
      = Except.ok ([], 5) := by
  obtain ⟨h50, h5⟩ := aCompCor_selection (fun _ => ([] : List (List ℚ)))
    [3/10, 3/10, 2/10, 2/10] (by norm_num)
  obtain ⟨n, hok, hgt, hmin⟩ := h50
  have hn2 : n ≤ 2 := by
    by_contra hc
    have := hmin 2 (by omega)
    norm_num [List.take] at this
  have hnge : 2 ≤ n := by
    rcases n with _ | _ | m
    · norm_num at hgt
    · norm_num [List.take] at hgt
    · omega
  have : n = 2 := by omega
  subst this
  exact ⟨hok, h5⟩

/-- C10: calling compute_aCompCor with a method other than '50%' and 'first_5'
fails with the unbound-local error (num_comp is never assigned before its use
in the refit), not a fallback policy or a defined error type. -/
theorem aCompCor_bad_method (refit : ℕ → List (List ℚ)) (method : String)
    (ev : List ℚ) (h50 : method ≠ "50%") (h5 : method ≠ "first_5") :
    compute_aCompCor refit method ev = Except.error PyErr.unboundLocal := by
  simp only [compute_aCompCor, compute_aCompCor_numComp, if_neg h50, if_neg h5]
  rfl

theorem aCompCor_bad_method_witness :
    compute_aCompCor (fun _ => ([] : List (List ℚ))) "median" [1]
      = Except.error PyErr.unboundLocal :=
  aCompCor_bad_method (fun _ => ([] : List (List ℚ))) "median" [1]
    (by decide) (by decide)

/-! ## Motion Regressor Expander (confounds.py: motion_24_params).
The input is the parsed rigid-parameter matrix (t rows of 6 values); rows are
functions on Fin 6, the expanded rows functions on Fin 24 (24 columns by
construction). -/

/-- The value written into column 6 + i: the loop sets row 0 of the lag block
to row 0 of the raw block, and rows 1: to rows :-1 of the raw block. -/
def laggedPar (rigid : List (Fin 6 → ℚ)) (j : ℕ) (i : Fin 6) : ℚ :=
  if j = 0 then rigid.getD 0 (fun _ => 0) i else rigid.getD (j - 1) (fun _ => 0) i

/-- Row j of the 24-column expanded table.  The assignments of the source
write disjoint column blocks (0-5 raw, 6-11 lag, 12-17 raw squared, 18-23 lag
squared), and the reads of each assignment refer to blocks already written, so
the sequential slice assignments denote this single-pass closed form. -/
def motionRow (rigid : List (Fin 6 → ℚ)) (j : ℕ) (c : Fin 24) : ℚ :=
  if h6 : (c : ℕ) < 6 then rigid.getD j (fun _ => 0) ⟨c, h6⟩
  else if h12 : (c : ℕ) < 12 then laggedPar rigid j ⟨(c : ℕ) - 6, by omega⟩
  else if h18 : (c : ℕ) < 18 then rigid.getD j (fun _ => 0) ⟨(c : ℕ) - 12, by omega⟩ ^ 2
  else laggedPar rigid j ⟨(c : ℕ) - 18, by have h24 := c.isLt; omega⟩ ^ 2

/-- motion_24_params (confounds.py): one expanded row per input frame.  On an
empty parameter set the assignment movpar[0, 6 + i] = movpar[0, i] raises
IndexError (row 0 of a 0 x 24 array), modelled as the error case. -/
def motion_24_params (rigid : List (Fin 6 → ℚ)) : Except PyErr (List (Fin 24 → ℚ)) :=
  if rigid.length = 0 then Except.error PyErr.indexError
  else Except.ok ((List.range rigid.length).map (motionRow rigid))

/-- C1 (amended): for every nonempty motion-parameter input with t frames, the
expander returns a table of exactly t rows and 24 columns in which columns 0-5
are the raw parameters, columns 6-11 the one-frame lag with row 0 lagging to
itself, columns 12-17 the squared raw parameters and columns 18-23 the squared
lagged parameters; on an empty input (the boundary the original universal
claim also covers) the source raises IndexError instead of returning a 0-row
table. -/
theorem motion24_friston (rigid : List (Fin 6 → ℚ)) (hne : rigid.length ≠ 0) :
    motion_24_params rigid
      = Except.ok ((List.range rigid.length).map (motionRow rigid))
    ∧ ((List.range rigid.length).map (motionRow rigid)).length = rigid.length
    ∧ ∀ j, j < rigid.length → ∀ i : Fin 6,
        motionRow rigid j ⟨(i : ℕ), by have := i.isLt; omega⟩
            = rigid.getD j (fun _ => 0) i
        ∧ motionRow rigid j ⟨(i : ℕ) + 6, by have := i.isLt; omega⟩
            = (if j = 0 then rigid.getD 0 (fun _ => 0) i
               else rigid.getD (j - 1) (fun _ => 0) i)
        ∧ motionRow rigid j ⟨(i : ℕ) + 12, by have := i.isLt; omega⟩
            = (rigid.getD j (fun _ => 0) i) ^ 2
        ∧ motionRow rigid j ⟨(i : ℕ) + 18, by have := i.isLt; omega⟩
            = (motionRow rigid j ⟨(i : ℕ) + 6, by have := i.isLt; omega⟩) ^ 2 := by
  refine ⟨by simp [motion_24_params, hne], by simp, ?_⟩
  intro j hj i
  have hi := i.isLt
  refine ⟨?_, ?_, ?_, ?_⟩
  · unfold motionRow
    simp only [Fin.val_mk]
    rw [dif_pos hi]
  · unfold motionRow laggedPar
    simp only [Fin.val_mk]
    rw [dif_neg (by omega), dif_pos (by omega)]
    simp only [Nat.add_sub_cancel]
  · unfold motionRow
    simp only [Fin.val_mk]
    rw [dif_neg (by omega), dif_neg (by omega), dif_pos (by omega)]
    simp only [Nat.add_sub_cancel]
  · unfold motionRow laggedPar
    simp only [Fin.val_mk]
    rw [dif_neg (by omega), dif_neg (by omega), dif_neg (by omega),
      dif_neg (by omega), dif_pos (by omega)]
    simp only [Nat.add_sub_cancel]

/-- A single-frame parameter set, frame values 0,1,2,3,4,5. -/
def rigidEx : List (Fin 6 → ℚ) := [fun i => ((i : ℕ) : ℚ)]

theorem motion24_friston_witness :
    motion_24_params rigidEx
      = Except.ok ((List.range rigidEx.length).map (motionRow rigidEx))
    ∧ motionRow rigidEx 0 ⟨6, by omega⟩ = rigidEx.getD 0 (fun _ => 0) 0
    ∧ motionRow rigidEx 0 ⟨12, by omega⟩ = (rigidEx.getD 0 (fun _ => 0) 0) ^ 2 := by
  have h := motion24_friston rigidEx (by decide)
  obtain ⟨hok, _, hrows⟩ := h
  obtain ⟨_, h6, h12, _⟩ := hrows 0 (by decide) 0
  exact ⟨hok, by simpa using h6, by simpa using h12⟩

/-- C1 counterexample: on the empty parameter set (t = 0) the expander raises
IndexError rather than returning a table with 0 rows. -/
theorem motion24_empty_fails :
    (motion_24_params ([] : List (Fin 6 → ℚ))).isOk = false := rfl

/-! ## Confound Matrix Builder (confounds.py: ConfoundRegression._run_interface
and write_confound_csv). -/

/-- The 24 columns of the expanded motion table, appended in column order. -/
def motion24cols (m : List (Fin 24 → ℚ)) : List (List ℚ) :=
  (List.finRange 24).map (fun c => m.map (fun row => row c))

/-- The assembled confound column list, in the source's fixed order: WM mean
signal, the WM aCompCor component columns, CSF mean signal, the CSF component
columns, global signal, then all 24 motion columns. -/
def confound_list (wmSig : List ℚ) (wmCols : List (List ℚ)) (csfSig : List ℚ)
    (csfCols : List (List ℚ)) (gSig : List ℚ) (motion : List (Fin 24 → ℚ)) :
    List (List ℚ) :=
  [wmSig] ++ wmCols ++ [csfSig] ++ csfCols ++ [gSig] ++ motion24cols motion

/-- The literal motion-block header names of the source (18 entries: the six
raw-parameter names are absent). -/
def motion_names : List String :=
  ["mov1-1", "mov2-1", "mov3-1", "rot1-1", "rot2-1", "rot3-1",
   "mov1^2", "mov2^2", "mov3^2", "rot1^2", "rot2^2", "rot3^2",
   "mov1-1^2", "mov2-1^2", "mov3-1^2", "rot1-1^2", "rot2-1^2", "rot3-1^2"]

/-- Sequential aCompCor component names, prefix followed by 1-based index. -/
def comp_names (pre : String) (num : ℕ) : List String :=
  (List.range num).map (fun c => pre ++ toString (c + 1))

/-- The assembled header list, in the source's order. -/
def confound_columns (wmNum csfNum : ℕ) : List String :=
  ["WM_signal"] ++ comp_names "WM_comp" wmNum ++ ["CSF_signal"]
    ++ comp_names "CSF_comp" csfNum ++ ["global_signal"] ++ motion_names

/-- write_confound_csv (confounds.py): pandas raises ValueError when the
header length differs from the column count of the frame; otherwise the
persisted table is the named columns. -/
def write_confound_csv (confounds : List (List ℚ)) (names : List String) :
    Except PyErr (List String × List (List ℚ)) :=
  if names.length = confounds.length then Except.ok (names, confounds)
  else Except.error PyErr.lengthMismatch

/-- The assembly step of ConfoundRegression._run_interface followed by the
CSV write. -/
def confound_regression_csv (wmSig : List ℚ) (wmCols : List (List ℚ))
    (csfSig : List ℚ) (csfCols : List (List ℚ)) (gSig : List ℚ)
    (motion : List (Fin 24 → ℚ)) (wmNum csfNum : ℕ) :
    Except PyErr (List String × List (List ℚ)) :=
  write_confound_csv (confound_list wmSig wmCols csfSig csfCols gSig motion)
    (confound_columns wmNum csfNum)

/-- Example aCompCor outputs: five single-frame component columns each for WM
and CSF, and a single-frame motion table. -/
def colsEx : List (List ℚ) := [[0], [0], [0], [0], [0]]

def motionEx : List (Fin 24 → ℚ) := [fun _ => 0]

/-- C2 evidence (code bug): with 5 WM and 5 CSF components the builder
assembles 37 regressor columns but only 31 header names — the six raw-motion
names are missing — so the header does not cover the assembled columns and the
CSV write fails with the pandas length mismatch. -/
theorem confound_header_mismatch :
    (confound_columns 5 5).length + 6
      = (confound_list [0] colsEx [0] colsEx [0] motionEx).length
    ∧ (confound_columns 5 5).length = 31
    ∧ (confound_list [0] colsEx [0] colsEx [0] motionEx).length = 37
    ∧ confound_regression_csv [0] colsEx [0] colsEx [0] motionEx 5 5
      = Except.error PyErr.lengthMismatch :=
  ⟨by decide, by decide, by decide, rfl⟩

end RABIES
